import Mathlib

/-
Verification of the scheduling API implemented in src/main.py.

The service exposes two operations over a document store of bookings:
GET /api/availability (get_availability) and POST /api/book (create_booking).
All wall-clock times are IST (a fixed +5:30 offset); stored timestamps are
naive-UTC ISO-8601 strings produced by datetime.isoformat().

Shallow embedding conventions used throughout this file:
- A Python naive datetime is represented by its total number of minutes since
  0001-01-01 00:00 (every datetime the program builds is minute-aligned:
  all stored timestamps have seconds = microseconds = 0).
- Calendar arithmetic (datetime(y, m, d), weekday()) is embedded by explicit
  proleptic-Gregorian functions; day 0 = 0001-01-01 is a Monday, matching
  Python where datetime(1, 1, 1).weekday() == 0.
- Strings written to and compared inside the store are represented by their
  lists of character codes (List Nat); MongoDB range operators on strings
  compare lexicographically byte-wise, embedded by lexCmp below.
-/

namespace SchedAPI

set_option maxRecDepth 40000

/-- Char codes of a Lean string literal; used to state theorems about the
HH:MM and ISO-8601 strings the service manipulates. -/
def encodeStr (s : String) : List Nat := s.data.map Char.toNat

/-! ### Gregorian calendar arithmetic (embedding of Python datetime.date) -/

/-- Proleptic Gregorian leap-year test, as used by Python datetime. -/
def isLeap (y : Nat) : Bool := (y % 4 == 0 && y % 100 != 0) || (y % 400 == 0)

/-- Number of days in month m of year y (months are 1-based). -/
def daysInMonth (y m : Nat) : Nat :=
  if m = 2 then (if isLeap y then 29 else 28)
  else if m = 4 ∨ m = 6 ∨ m = 9 ∨ m = 11 then 30
  else 31

/-- Number of days in year y. -/
def daysInYear (y : Nat) : Nat := 365 + (if isLeap y then 1 else 0)

/-- Number of leap years among years 1..Y. -/
def leapsBefore (Y : Nat) : Nat := (Y / 4 + Y / 400) - Y / 100

/-- Days strictly before year y, counting from 0001-01-01. -/
def daysBeforeYear (y : Nat) : Nat := 365 * (y - 1) + leapsBefore (y - 1)

/-- Days of year y strictly before month m (months 1..m-1 summed). -/
def daysBeforeMonth (y : Nat) : Nat → Nat
  | 0 => 0
  | 1 => 0
  | m + 2 => daysBeforeMonth y (m + 1) + daysInMonth y (m + 1)

/-- Day number of the civil date y-m-d, with 0001-01-01 mapped to 0.  This
equals Python date(y, m, d).toordinal() - 1. -/
def rataDie (y m d : Nat) : Nat := daysBeforeYear y + daysBeforeMonth y m + (d - 1)

/-- Python date(y, m, d).weekday(): Monday = 0 .. Sunday = 6. -/
def weekday (y m d : Nat) : Nat := rataDie y m d % 7

/-- Validity of (y, m, d) as enforced by the Python datetime(y, m, d)
constructor, which ist_date_from_str relies on for its error path. -/
def validDate (y m d : Nat) : Prop :=
  1 ≤ y ∧ y ≤ 9999 ∧ 1 ≤ m ∧ m ≤ 12 ∧ 1 ≤ d ∧ d ≤ daysInMonth y m

instance validDate.instDecidable (y m d : Nat) : Decidable (validDate y m d) := by
  unfold validDate; infer_instance

/-- Byte-wise lexicographic three-way comparison of character-code lists;
this is how MongoDB orders the ASCII strings this service stores. -/
def lexCmp : List Nat → List Nat → Ordering
  | [], [] => .eq
  | [], _ :: _ => .lt
  | _ :: _, [] => .gt
  | x :: xs, y :: ys => (compare x y).then (lexCmp xs ys)

/-- Zero-padded fixed-width decimal numeral of n, k digits, as character
codes; embeds the Python format f"{n:0kd}" for n < 10^k. -/
def pad : Nat → Nat → List Nat
  | 0, _ => []
  | k + 1, a => (48 + a / 10 ^ k) :: pad k (a % 10 ^ k)

/-! ### Civil date from day number (inverse calendar conversion)

The helpers below recover (year, month, day) from a day number.  They are
written with an explicit fuel argument (first parameter) so that they reduce
by kernel computation; the fuel passed at the call sites is provably
sufficient (see the spec lemmas), so it never changes the computed value. -/

def yearAux : Nat → Nat → Nat → Nat × Nat
  | 0, y, n => (y, n)
  | fuel + 1, y, n =>
    if n < daysInYear y then (y, n) else yearAux fuel (y + 1) (n - daysInYear y)

def monthAux (y : Nat) : Nat → Nat → Nat → Nat × Nat
  | 0, m, n => (m, n)
  | fuel + 1, m, n =>
    if n < daysInMonth y m then (m, n) else monthAux y fuel (m + 1) (n - daysInMonth y m)

/-- Civil (year, month, day) of day number n, inverse of rataDie. -/
def civilFromDays (n : Nat) : Nat × Nat × Nat :=
  let p := yearAux (n + 1) 1 n
  let q := monthAux p.1 14 1 p.2
  (p.1, q.1, q.2 + 1)

/-! ### Constants and string renderings from src/main.py -/

/-- IST_OFFSET = timedelta(hours=5, minutes=30), in minutes. -/
def IST_OFFSET : Nat := 330

def SLOT_MINUTES : Nat := 30

def START_HOUR_IST : Nat := 9

/-- Exclusive end boundary of business hours. -/
def END_HOUR_IST : Nat := 17

/-- Python f"{h:02d}:{m:02d}" for minute-of-day t (h = t / 60, m = t % 60),
as character codes (58 is the colon). -/
def hhmm (t : Nat) : List Nat := pad 2 (t / 60) ++ 58 :: pad 2 (t % 60)

/-- datetime.isoformat() of the naive datetime lying a minutes after
0001-01-01 00:00, i.e. "YYYY-MM-DDTHH:MM:SS" (45 is the hyphen, 84 the
letter T, 58 the colon; the seconds field of every datetime this program
builds is zero). -/
def isoMin (a : Nat) : List Nat :=
  let c := civilFromDays (a / 1440)
  let t := a % 1440
  pad 4 c.1 ++ 45 :: (pad 2 c.2.1 ++ 45 :: (pad 2 c.2.2 ++ 84 ::
    (pad 2 (t / 60) ++ 58 :: (pad 2 (t % 60) ++ 58 :: pad 2 0))))

/-- Exclusive upper bound on the minute values whose year has at most four
digits (start of year 10000). -/
def isoMax : Nat := 1440 * daysBeforeYear 10000

/-- MongoDB string comparison for the $lt operator. -/
def strLt (a b : List Nat) : Bool := lexCmp a b == Ordering.lt

/-- MongoDB string comparison for the $gt operator. -/
def strGt (a b : List Nat) : Bool := lexCmp a b == Ordering.gt

/-- MongoDB string comparison for the $gte operator. -/
def strGe (a b : List Nat) : Bool := !(lexCmp a b == Ordering.lt)

/-! ### Data model (src/main.py models and schemas.Booking)

Strings are embedded as char-code lists.  The request's date string
"YYYY-MM-DD" and time string "HH:MM" arrive here already split into the
integers (y, mo, d) and (hh, mi) that Python's map(int, ...) produces; the
constructor range checks of datetime/time are modelled explicitly at the
use sites.  date_ist and start_time_ist hold the canonical renderings of
those fields. -/

structure BookingDoc where
  name : List Nat
  email : List Nat
  phone : Option (List Nat)
  date_ist : List Nat
  start_time_ist : List Nat
  start_utc_iso : List Nat
  end_utc_iso : List Nat
  notes : Option (List Nat)
deriving DecidableEq

/-- The booking collection db["booking"], in insertion order. -/
abbrev Store := List BookingDoc

structure BookingRequest where
  name : List Nat
  email : List Nat
  phone : Option (List Nat)
  y : Nat
  mo : Nat
  d : Nat
  hh : Nat
  mi : Nat
  notes : Option (List Nat)
deriving DecidableEq

structure BookingResponse where
  status : List Nat
  date : List Nat
  time : List Nat
  timezone : List Nat
deriving DecidableEq

/-- The HTTPException variants create_booking can raise. -/
inductive BookingError where
  | invalidDate
  | weekendNotAllowed
  | invalidTime
  | outsideHours
  | slotTaken
deriving DecidableEq

/-- HTTP status code attached to each error in src/main.py. -/
def BookingError.statusCode : BookingError → Nat
  | .invalidDate => 400
  | .weekendNotAllowed => 400
  | .invalidTime => 400
  | .outsideHours => 400
  | .slotTaken => 409

/-- Failure modes of get_availability: the 400 HTTPException for a
malformed date, and the unhandled OverflowError (an HTTP 500) that the
day-window datetime arithmetic raises on the calendar-boundary dates
0001-01-01 and 9999-12-31. -/
inductive AvailabilityError where
  | invalidDate
  | dateOverflow
deriving DecidableEq

deriving instance DecidableEq for Except

/-- to_utc_from_ist: datetime.combine(date, t) - IST_OFFSET, in minutes.
Nat subtraction is total; the two places the program could step outside
Python's datetime range are modelled as explicit dateOverflow errors in
get_availability, and the booking path provably stays inside the range
(its accepted times satisfy t ≥ 540 > IST_OFFSET with a valid date). -/
def to_utc_from_ist (dateMin t : Nat) : Nat := dateMin + t - IST_OFFSET

/-- The helper overlaps from src/main.py (defined there but not called:
the conflict check inlines the same comparison as a store query). -/
def overlaps (a_start a_end b_start b_end : Nat) : Bool :=
  decide (a_start < b_end) && decide (b_start < a_end)

/-- Canonical "YYYY-MM-DD" rendering of a date, as char codes. -/
def dateStr (y mo d : Nat) : List Nat := pad 4 y ++ 45 :: (pad 2 mo ++ 45 :: pad 2 d)

/-- Parser for the canonical "YYYY-MM-DDTHH:MM:00" timestamps this service
writes; embeds datetime.fromisoformat on exactly those strings.  On any
other list it returns none, matching the except-branch in get_availability
that skips records whose timestamps fail to parse. -/
def fromIso? (s : List Nat) : Option Nat :=
  match s with
  | [y1, y2, y3, y4, c1, mo1, mo2, c2, dd1, dd2, c3, h1, h2, c4, mi1, mi2, c5, s1, s2] =>
    if (48 ≤ y1 ∧ y1 ≤ 57) ∧ (48 ≤ y2 ∧ y2 ≤ 57) ∧ (48 ≤ y3 ∧ y3 ≤ 57) ∧
       (48 ≤ y4 ∧ y4 ≤ 57) ∧ c1 = 45 ∧ (48 ≤ mo1 ∧ mo1 ≤ 57) ∧ (48 ≤ mo2 ∧ mo2 ≤ 57) ∧
       c2 = 45 ∧ (48 ≤ dd1 ∧ dd1 ≤ 57) ∧ (48 ≤ dd2 ∧ dd2 ≤ 57) ∧ c3 = 84 ∧
       (48 ≤ h1 ∧ h1 ≤ 57) ∧ (48 ≤ h2 ∧ h2 ≤ 57) ∧ c4 = 58 ∧
       (48 ≤ mi1 ∧ mi1 ≤ 57) ∧ (48 ≤ mi2 ∧ mi2 ≤ 57) ∧ c5 = 58 ∧ s1 = 48 ∧ s2 = 48 then
      let y := (y1 - 48) * 1000 + (y2 - 48) * 100 + (y3 - 48) * 10 + (y4 - 48)
      let mo := (mo1 - 48) * 10 + (mo2 - 48)
      let d := (dd1 - 48) * 10 + (dd2 - 48)
      let h := (h1 - 48) * 10 + (h2 - 48)
      let mi := (mi1 - 48) * 10 + (mi2 - 48)
      if 1 ≤ y ∧ 1 ≤ mo ∧ mo ≤ 12 ∧ 1 ≤ d ∧ d ≤ daysInMonth y mo ∧ h < 24 ∧ mi < 60 then
        some (rataDie y mo d * 1440 + h * 60 + mi)
      else none
    else none
  | _ => none

/-- The while-loop in get_availability generating the 30-minute slot grid.
The first argument is fuel making the recursion structural; from any
minute-of-day below 1440 the loop stops within 48 iterations, so the fuel
of 48 used at the call site never cuts the loop short. -/
def genSlots : Nat → Nat → List (List Nat)
  | 0, _ => []
  | fuel + 1, t =>
    if END_HOUR_IST ≤ t / 60 ∨ (t / 60 = END_HOUR_IST ∧ 0 < t % 60) then []
    else hhmm t :: genSlots fuel ((t + SLOT_MINUTES) % 1440)

/-- Modelled from the spec: create_document lives in database.py, which is
not under src/; per spec section 6 the Slot Store collaborator provides
"single-document insert returning a generated identifier", embedded as
appending the document to the collection list. -/
def create_document (store : Store) (doc : BookingDoc) : Store := store ++ [doc]

/-- The day-window store query of get_availability:
col.find with start_utc_iso $gte day_start, $lt day_end (MongoDB compares
the ISO strings lexicographically). -/
def dayWindowQuery (day_start_utc day_end_utc : Nat) (doc : BookingDoc) : Bool :=
  strGe doc.start_utc_iso (isoMin day_start_utc) &&
  strLt doc.start_utc_iso (isoMin day_end_utc)

/-- The conflict store query of create_booking:
col.find_one with start_utc_iso $lt end_utc.isoformat() and end_utc_iso
$gt start_utc.isoformat() (MongoDB compares the strings lexicographically). -/
def conflictQuery (start_utc end_utc : Nat) (doc : BookingDoc) : Bool :=
  strLt doc.start_utc_iso (isoMin end_utc) &&
  strGt doc.end_utc_iso (isoMin start_utc)

/-- GET /api/availability (src/main.py get_availability).  The date string
arrives parsed as (y, mo, d); ist_date_from_str's failure branch is the
invalidDate error.  The two guards mirror the OverflowError raised by
Python datetime arithmetic on the boundary dates: computing day_start_utc
(midnight minus the IST offset) underflows datetime.min exactly when the
date is 0001-01-01, and date_dt + timedelta(days=1) overflows datetime.max
exactly when the date is 9999-12-31; either way the request dies before
the store is queried. -/
def get_availability (store : Store) (y mo d : Nat) :
    Except AvailabilityError (List (List Nat)) :=
  if validDate y mo d then
    if 5 ≤ weekday y mo d then .ok []
    else
      let all_slots_ist := genSlots 48 (START_HOUR_IST * 60)
      if rataDie y mo d * 1440 < IST_OFFSET then .error .dateOverflow
      else
        let day_start_utc := to_utc_from_ist (rataDie y mo d * 1440) 0
        if daysBeforeYear 10000 ≤ rataDie y mo d + 1 then .error .dateOverflow
        else
          let day_end_utc := to_utc_from_ist ((rataDie y mo d + 1) * 1440) 0
          let existing := store.filter (dayWindowQuery day_start_utc day_end_utc)
          let taken := existing.filterMap (fun doc =>
            match fromIso? doc.start_utc_iso, fromIso? doc.end_utc_iso with
            | some s, some _ => some (hhmm ((s + IST_OFFSET) % 1440))
            | _, _ => none)
          .ok (all_slots_ist.filter (fun slot => decide (¬ slot ∈ taken)))
  else .error .invalidDate

/-- UTC start instant (in minutes) create_booking computes for a request. -/
def startUTCOf (req : BookingRequest) : Nat :=
  to_utc_from_ist (rataDie req.y req.mo req.d * 1440) (req.hh * 60 + req.mi)

/-- The schemas.Booking document create_booking persists for a request. -/
def bookingDocOf (req : BookingRequest) : BookingDoc :=
  { name := req.name
    email := req.email
    phone := req.phone
    date_ist := dateStr req.y req.mo req.d
    start_time_ist := hhmm (req.hh * 60 + req.mi)
    start_utc_iso := isoMin (startUTCOf req)
    end_utc_iso := isoMin (startUTCOf req + SLOT_MINUTES)
    notes := req.notes }

/-- The confirmation BookingResponse for a request. -/
def respOf (req : BookingRequest) : BookingResponse :=
  { status := encodeStr "confirmed"
    date := dateStr req.y req.mo req.d
    time := hhmm (req.hh * 60 + req.mi)
    timezone := encodeStr "IST" }

/-- POST /api/book (src/main.py create_booking).  Validation order follows
the source: date parse, weekday, time parse, business hours, conflict
query, insert. -/
def create_booking (store : Store) (req : BookingRequest) :
    Except BookingError BookingResponse × Store :=
  if validDate req.y req.mo req.d then
    if 5 ≤ weekday req.y req.mo req.d then (.error .weekendNotAllowed, store)
    else if req.hh < 24 ∧ req.mi < 60 then
      if START_HOUR_IST ≤ req.hh ∧ req.hh < END_HOUR_IST then
        let start_utc := startUTCOf req
        let end_utc := start_utc + SLOT_MINUTES
        match store.find? (conflictQuery start_utc end_utc) with
        | some _ => (.error .slotTaken, store)
        | none => (.ok (respOf req), create_document store (bookingDocOf req))
      else (.error .outsideHours, store)
    else (.error .invalidTime, store)
  else (.error .invalidDate, store)

/-- Two half-open intervals share an instant.  Instants are minute-valued
here; for integer endpoints the two intervals share a real point exactly
when they share an integer one, so this loses no generality. -/
def sharesInstant (a_start a_end b_start b_end : Nat) : Prop :=
  ∃ t, (a_start ≤ t ∧ t < a_end) ∧ (b_start ≤ t ∧ t < b_end)

/-- The full 16-slot weekday grid, 09:00 .. 16:30 in half-hour steps. -/
def fullGrid : List (List Nat) :=
  [encodeStr "09:00", encodeStr "09:30", encodeStr "10:00", encodeStr "10:30",
   encodeStr "11:00", encodeStr "11:30", encodeStr "12:00", encodeStr "12:30",
   encodeStr "13:00", encodeStr "13:30", encodeStr "14:00", encodeStr "14:30",
   encodeStr "15:00", encodeStr "15:30", encodeStr "16:00", encodeStr "16:30"]

/-- Concrete request: 2024-06-10 (a Monday) at 10:00, the scenario from the
spec. -/
def reqA : BookingRequest :=
  { name := encodeStr "A", email := encodeStr "a@x.com", phone := none,
    y := 2024, mo := 6, d := 10, hh := 10, mi := 0, notes := none }

/-- Same contact, off-grid time 09:15. -/
def reqB915 : BookingRequest := { reqA with hh := 9, mi := 15 }

/-- Same contact, grid time 09:30. -/
def reqB930 : BookingRequest := { reqA with hh := 9, mi := 30 }

/-! ### Theorems -/

/-! ### Calendar lemmas -/

theorem daysInYear_pos (y : Nat) : 0 < daysInYear y := by
  unfold daysInYear; split <;> omega

theorem daysInYear_le (y : Nat) : daysInYear y ≤ 366 := by
  unfold daysInYear; split <;> omega

theorem daysInMonth_pos (y m : Nat) : 28 ≤ daysInMonth y m := by
  unfold daysInMonth; split
  · split <;> omega
  · split <;> omega

theorem leapsBefore_succ (Y : Nat) :
    leapsBefore (Y + 1) = leapsBefore Y + (if isLeap (Y + 1) then 1 else 0) := by
  have hli : isLeap (Y + 1) = true ↔
      (((Y + 1) % 4 = 0 ∧ (Y + 1) % 100 ≠ 0) ∨ (Y + 1) % 400 = 0) := by
    simp [isLeap]
  unfold leapsBefore
  by_cases hl : isLeap (Y + 1) <;> simp [hl] <;> rw [hli] at hl <;> omega

theorem daysBeforeYear_succ (y : Nat) (hy : 1 ≤ y) :
    daysBeforeYear (y + 1) = daysBeforeYear y + daysInYear y := by
  obtain ⟨Y, rfl⟩ : ∃ Y, y = Y + 1 := ⟨y - 1, by omega⟩
  have h := leapsBefore_succ Y
  unfold daysBeforeYear daysInYear
  simp only [Nat.add_sub_cancel]
  rw [h]
  by_cases hl : isLeap (Y + 1) <;> simp [hl] <;> omega

theorem daysBeforeYear_le_succ (y : Nat) :
    daysBeforeYear y ≤ daysBeforeYear (y + 1) := by
  rcases Nat.eq_zero_or_pos y with h | h
  · subst h
    simp [daysBeforeYear, leapsBefore]
  · rw [daysBeforeYear_succ y h]
    omega

theorem daysBeforeYear_mono {y1 y2 : Nat} (h : y1 ≤ y2) :
    daysBeforeYear y1 ≤ daysBeforeYear y2 := by
  induction y2 with
  | zero => simp_all
  | succ n ih =>
    rcases Nat.lt_or_ge y1 (n + 1) with h2 | h2
    · exact le_trans (ih (by omega)) (daysBeforeYear_le_succ n)
    · have : y1 = n + 1 := by omega
      subst this; rfl

theorem daysBeforeMonth_succ (y m : Nat) (hm : 1 ≤ m) :
    daysBeforeMonth y (m + 1) = daysBeforeMonth y m + daysInMonth y m := by
  obtain ⟨k, rfl⟩ : ∃ k, m = k + 1 := ⟨m - 1, by omega⟩
  rfl

theorem daysBeforeMonth_le_succ (y m : Nat) :
    daysBeforeMonth y m ≤ daysBeforeMonth y (m + 1) := by
  rcases Nat.eq_zero_or_pos m with h | h
  · subst h; simp [daysBeforeMonth]
  · rw [daysBeforeMonth_succ y m h]; omega

theorem daysBeforeMonth_mono (y : Nat) {m1 m2 : Nat} (h : m1 ≤ m2) :
    daysBeforeMonth y m1 ≤ daysBeforeMonth y m2 := by
  induction m2 with
  | zero => simp_all
  | succ n ih =>
    rcases Nat.lt_or_ge m1 (n + 1) with h2 | h2
    · exact le_trans (ih (by omega)) (daysBeforeMonth_le_succ y n)
    · have : m1 = n + 1 := by omega
      subst this; rfl

theorem daysBeforeMonth_13 (y : Nat) : daysBeforeMonth y 13 = daysInYear y := by
  by_cases hl : isLeap y <;>
    simp [daysBeforeMonth, daysInMonth, daysInYear, hl]

/-- A valid month/day pair stays inside its year. -/
theorem dayOfYear_lt (y m d : Nat) (hm1 : 1 ≤ m) (hm2 : m ≤ 12)
    (hd : d ≤ daysInMonth y m) :
    daysBeforeMonth y m + (d - 1) < daysInYear y := by
  have h1 : daysBeforeMonth y m + daysInMonth y m = daysBeforeMonth y (m + 1) :=
    (daysBeforeMonth_succ y m hm1).symm
  have h2 : daysBeforeMonth y (m + 1) ≤ daysBeforeMonth y 13 :=
    daysBeforeMonth_mono y (by omega)
  rw [daysBeforeMonth_13] at h2
  have h3 := daysInMonth_pos y m
  omega

theorem rataDie_lt_year (y m d y2 : Nat) (hy : 1 ≤ y) (hm1 : 1 ≤ m) (hm2 : m ≤ 12)
    (hd : d ≤ daysInMonth y m) (h : y < y2) :
    rataDie y m d < daysBeforeYear y2 := by
  have h1 := dayOfYear_lt y m d hm1 hm2 hd
  have h2 := daysBeforeYear_succ y hy
  have h3 := daysBeforeYear_mono (show y + 1 ≤ y2 by omega)
  unfold rataDie
  omega

/-- rataDie is strictly monotone with respect to lexicographic order on valid
civil dates. -/
theorem rataDie_lt_of_lex (y1 m1 d1 y2 m2 d2 : Nat)
    (hy1 : 1 ≤ y1) (hm1a : 1 ≤ m1) (hm1b : m1 ≤ 12) (hd1a : 1 ≤ d1)
    (hd1b : d1 ≤ daysInMonth y1 m1)
    (hlex : y1 < y2 ∨ (y1 = y2 ∧ m1 < m2) ∨ (y1 = y2 ∧ m1 = m2 ∧ d1 < d2)) :
    rataDie y1 m1 d1 < rataDie y2 m2 d2 := by
  rcases hlex with h | ⟨rfl, h⟩ | ⟨rfl, rfl, h⟩
  · have := rataDie_lt_year y1 m1 d1 y2 hy1 hm1a hm1b hd1b h
    unfold rataDie at *
    omega
  · have h1 : daysBeforeMonth y1 m1 + daysInMonth y1 m1 = daysBeforeMonth y1 (m1 + 1) :=
      (daysBeforeMonth_succ y1 m1 hm1a).symm
    have h2 : daysBeforeMonth y1 (m1 + 1) ≤ daysBeforeMonth y1 m2 :=
      daysBeforeMonth_mono y1 (by omega)
    unfold rataDie
    omega
  · unfold rataDie
    omega

/-! ### Ordering and lexicographic-comparison machinery -/

theorem ordering_then_assoc (o1 o2 o3 : Ordering) :
    (o1.then o2).then o3 = o1.then (o2.then o3) := by
  cases o1 <;> rfl

theorem compare_add_left (c a b : Nat) : compare (c + a) (c + b) = compare a b := by
  rcases Nat.lt_trichotomy a b with h | h | h
  · rw [Nat.compare_eq_lt.mpr h, Nat.compare_eq_lt.mpr (by omega)]
  · subst h
    rw [Nat.compare_eq_eq.mpr rfl, Nat.compare_eq_eq.mpr rfl]
  · rw [Nat.compare_eq_gt.mpr h, Nat.compare_eq_gt.mpr (by omega)]

/-- Comparing two numbers through their quotient/remainder decomposition by a
common modulus K agrees with direct comparison. -/
theorem compare_divmod (K q1 r1 q2 r2 : Nat) (h1 : r1 < K) (h2 : r2 < K) :
    (compare q1 q2).then (compare r1 r2) = compare (K * q1 + r1) (K * q2 + r2) := by
  rcases Nat.lt_trichotomy q1 q2 with h | h | h
  · rw [Nat.compare_eq_lt.mpr h]
    have hK : K * (q1 + 1) ≤ K * q2 := Nat.mul_le_mul_left K (by omega)
    have : K * q1 + r1 < K * q2 + r2 := by
      have : K * (q1 + 1) = K * q1 + K := by ring
      omega
    rw [Nat.compare_eq_lt.mpr this]
    rfl
  · subst h
    rw [Nat.compare_eq_eq.mpr rfl, compare_add_left]
    rfl
  · rw [Nat.compare_eq_gt.mpr h]
    have hK : K * (q2 + 1) ≤ K * q1 := Nat.mul_le_mul_left K (by omega)
    have : K * q2 + r2 < K * q1 + r1 := by
      have : K * (q2 + 1) = K * q2 + K := by ring
      omega
    rw [Nat.compare_eq_gt.mpr this]
    rfl

theorem lexCmp_cons (x y : Nat) (xs ys : List Nat) :
    lexCmp (x :: xs) (y :: ys) = (compare x y).then (lexCmp xs ys) := rfl

theorem lexCmp_cons_same (c : Nat) (s t : List Nat) :
    lexCmp (c :: s) (c :: t) = lexCmp s t := by
  rw [lexCmp_cons, Nat.compare_eq_eq.mpr rfl]
  rfl

/-- Lexicographic comparison of equal-width zero-padded numerals (with
arbitrary continuations) agrees with numeric comparison. -/
theorem lexCmp_pad (k : Nat) : ∀ (a b : Nat) (s t : List Nat), a < 10 ^ k → b < 10 ^ k →
    lexCmp (pad k a ++ s) (pad k b ++ t) = (compare a b).then (lexCmp s t) := by
  induction k with
  | zero =>
    intro a b s t ha hb
    have ha0 : a = 0 := by simpa using ha
    have hb0 : b = 0 := by simpa using hb
    subst ha0; subst hb0
    show lexCmp s t = (compare 0 0).then (lexCmp s t)
    rw [Nat.compare_eq_eq.mpr rfl]
    rfl
  | succ k ih =>
    intro a b s t ha hb
    have hpow : 0 < 10 ^ k := Nat.pos_pow_of_pos k (by omega)
    have hma : a % 10 ^ k < 10 ^ k := Nat.mod_lt _ hpow
    have hmb : b % 10 ^ k < 10 ^ k := Nat.mod_lt _ hpow
    show lexCmp ((48 + a / 10 ^ k) :: (pad k (a % 10 ^ k) ++ s))
      ((48 + b / 10 ^ k) :: (pad k (b % 10 ^ k) ++ t)) = (compare a b).then (lexCmp s t)
    rw [lexCmp_cons, ih _ _ _ _ hma hmb, compare_add_left, ← ordering_then_assoc,
      compare_divmod (10 ^ k) _ _ _ _ hma hmb, Nat.div_add_mod, Nat.div_add_mod]

theorem daysInYear_ge (y : Nat) : 365 ≤ daysInYear y := by
  unfold daysInYear; split <;> omega

theorem yearAux_spec (fuel : Nat) : ∀ y n, 1 ≤ y → n < 365 * fuel →
    daysBeforeYear (yearAux fuel y n).1 + (yearAux fuel y n).2 = daysBeforeYear y + n ∧
    (yearAux fuel y n).2 < daysInYear (yearAux fuel y n).1 ∧
    1 ≤ (yearAux fuel y n).1 := by
  induction fuel with
  | zero => intro y n hy h; omega
  | succ fuel ih =>
    intro y n hy h
    simp only [yearAux]
    split
    · exact ⟨rfl, by assumption, hy⟩
    · rename_i hcond
      have hge := daysInYear_ge y
      have hstep := daysBeforeYear_succ y hy
      obtain ⟨ha, hb, hc⟩ := ih (y + 1) (n - daysInYear y) (by omega) (by omega)
      exact ⟨by omega, hb, by omega⟩

theorem monthAux_spec (y fuel : Nat) : ∀ m n, 1 ≤ m → n < 28 * fuel →
    daysBeforeMonth y (monthAux y fuel m n).1 + (monthAux y fuel m n).2 =
      daysBeforeMonth y m + n ∧
    (monthAux y fuel m n).2 < daysInMonth y (monthAux y fuel m n).1 ∧
    1 ≤ (monthAux y fuel m n).1 := by
  induction fuel with
  | zero => intro m n hm h; omega
  | succ fuel ih =>
    intro m n hm h
    simp only [monthAux]
    split
    · exact ⟨rfl, by assumption, hm⟩
    · rename_i hcond
      have hge := daysInMonth_pos y m
      have hstep := daysBeforeMonth_succ y m hm
      obtain ⟨ha, hb, hc⟩ := ih (m + 1) (n - daysInMonth y m) (by omega) (by omega)
      exact ⟨by omega, hb, by omega⟩

theorem civilFromDays_spec (n : Nat) :
    rataDie (civilFromDays n).1 (civilFromDays n).2.1 (civilFromDays n).2.2 = n ∧
    1 ≤ (civilFromDays n).1 ∧
    1 ≤ (civilFromDays n).2.1 ∧ (civilFromDays n).2.1 ≤ 12 ∧
    1 ≤ (civilFromDays n).2.2 ∧
    (civilFromDays n).2.2 ≤ daysInMonth (civilFromDays n).1 (civilFromDays n).2.1 := by
  obtain ⟨h1, h2, h3⟩ := yearAux_spec (n + 1) 1 n (by omega) (by omega)
  obtain ⟨g1, g2, g3⟩ :=
    monthAux_spec (yearAux (n + 1) 1 n).1 14 1 (yearAux (n + 1) 1 n).2 (by omega)
      (by have := daysInYear_le (yearAux (n + 1) 1 n).1; omega)
  have hm12 : (monthAux (yearAux (n + 1) 1 n).1 14 1 (yearAux (n + 1) 1 n).2).1 ≤ 12 := by
    by_contra hc
    have h13 := daysBeforeMonth_mono (yearAux (n + 1) 1 n).1
      (show 13 ≤ (monthAux (yearAux (n + 1) 1 n).1 14 1 (yearAux (n + 1) 1 n).2).1 by omega)
    rw [daysBeforeMonth_13] at h13
    have hdbm1 : daysBeforeMonth (yearAux (n + 1) 1 n).1 1 = 0 := rfl
    omega
  have hdby1 : daysBeforeYear 1 = 0 := rfl
  have hdbm1 : daysBeforeMonth (yearAux (n + 1) 1 n).1 1 = 0 := rfl
  unfold civilFromDays
  simp only [rataDie]
  refine ⟨by omega, by omega, by omega, hm12, by omega, ?_⟩
  simpa using g2

/-- For day numbers below year 10000 the recovered year has at most four
digits, so its zero-padded decimal rendering is faithful. -/
theorem civilFromDays_year_le (n : Nat) (h : n < daysBeforeYear 10000) :
    (civilFromDays n).1 ≤ 9999 := by
  obtain ⟨h1, hy, _⟩ := civilFromDays_spec n
  by_contra hc
  have hmono := daysBeforeYear_mono (show 10000 ≤ (civilFromDays n).1 by omega)
  unfold rataDie at h1
  omega

/-- Lexicographic comparison of civil-date triples agrees with comparison of
their day numbers, for valid dates. -/
theorem compare3_rataDie (y1 m1 d1 y2 m2 d2 : Nat)
    (hy1 : 1 ≤ y1) (hm1a : 1 ≤ m1) (hm1b : m1 ≤ 12) (hd1a : 1 ≤ d1)
    (hd1b : d1 ≤ daysInMonth y1 m1)
    (hy2 : 1 ≤ y2) (hm2a : 1 ≤ m2) (hm2b : m2 ≤ 12) (hd2a : 1 ≤ d2)
    (hd2b : d2 ≤ daysInMonth y2 m2) :
    (compare y1 y2).then ((compare m1 m2).then (compare d1 d2)) =
      compare (rataDie y1 m1 d1) (rataDie y2 m2 d2) := by
  rcases Nat.lt_trichotomy y1 y2 with h | h | h
  · rw [Nat.compare_eq_lt.mpr h, Nat.compare_eq_lt.mpr
      (rataDie_lt_of_lex y1 m1 d1 y2 m2 d2 hy1 hm1a hm1b hd1a hd1b (Or.inl h))]
    rfl
  · subst h
    rcases Nat.lt_trichotomy m1 m2 with h | h | h
    · rw [Nat.compare_eq_eq.mpr rfl, Nat.compare_eq_lt.mpr h, Nat.compare_eq_lt.mpr
        (rataDie_lt_of_lex y1 m1 d1 y1 m2 d2 hy1 hm1a hm1b hd1a hd1b
          (Or.inr (Or.inl ⟨rfl, h⟩)))]
      rfl
    · subst h
      rcases Nat.lt_trichotomy d1 d2 with h | h | h
      · rw [Nat.compare_eq_eq.mpr (rfl : y1 = y1), Nat.compare_eq_eq.mpr (rfl : m1 = m1),
          Nat.compare_eq_lt.mpr h, Nat.compare_eq_lt.mpr
          (rataDie_lt_of_lex y1 m1 d1 y1 m1 d2 hy1 hm1a hm1b hd1a hd1b
            (Or.inr (Or.inr ⟨rfl, rfl, h⟩)))]
        rfl
      · subst h
        rw [Nat.compare_eq_eq.mpr (rfl : y1 = y1), Nat.compare_eq_eq.mpr (rfl : m1 = m1),
          Nat.compare_eq_eq.mpr (rfl : d1 = d1),
          Nat.compare_eq_eq.mpr (rfl : rataDie y1 m1 d1 = rataDie y1 m1 d1)]
        rfl
      · rw [Nat.compare_eq_eq.mpr (rfl : y1 = y1), Nat.compare_eq_eq.mpr (rfl : m1 = m1),
          Nat.compare_eq_gt.mpr h, Nat.compare_eq_gt.mpr
          (rataDie_lt_of_lex y1 m1 d2 y1 m1 d1 hy1 hm1a hm1b hd2a hd2b
            (Or.inr (Or.inr ⟨rfl, rfl, h⟩)))]
        rfl
    · rw [Nat.compare_eq_eq.mpr rfl, Nat.compare_eq_gt.mpr h, Nat.compare_eq_gt.mpr
        (rataDie_lt_of_lex y1 m2 d2 y1 m1 d1 hy1 hm2a hm2b hd2a hd2b
          (Or.inr (Or.inl ⟨rfl, h⟩)))]
      rfl
  · rw [Nat.compare_eq_gt.mpr h, Nat.compare_eq_gt.mpr
      (rataDie_lt_of_lex y2 m2 d2 y1 m1 d1 hy2 hm2a hm2b hd2a hd2b (Or.inl h))]
    rfl

theorem daysInMonth_le (y m : Nat) : daysInMonth y m ≤ 31 := by
  unfold daysInMonth; split
  · split <;> omega
  · split <;> omega

theorem ordering_then_eq (o : Ordering) : o.then Ordering.eq = o := by
  cases o <;> rfl

theorem lexCmp_same (s : List Nat) : lexCmp s s = Ordering.eq := by
  induction s with
  | nil => rfl
  | cons x xs ih =>
    rw [lexCmp_cons, Nat.compare_eq_eq.mpr rfl, ih]
    rfl

theorem beq_lt_iff (o : Ordering) : (o == Ordering.lt) = true ↔ o = Ordering.lt := by
  cases o <;> decide

theorem beq_gt_iff (o : Ordering) : (o == Ordering.gt) = true ↔ o = Ordering.gt := by
  cases o <;> decide

theorem bnot_beq_lt_iff (o : Ordering) :
    (!(o == Ordering.lt)) = true ↔ ¬ o = Ordering.lt := by
  cases o <;> decide

/-- Central equivalence: lexicographic comparison of the ISO-8601 renderings
of two minute instants agrees with their chronological comparison, for all
instants with four-digit years. -/
theorem lexCmp_isoMin (a b : Nat) (ha : a < isoMax) (hb : b < isoMax) :
    lexCmp (isoMin a) (isoMin b) = compare a b := by
  obtain ⟨ra, ya1, ma1, ma2, da1, da2⟩ := civilFromDays_spec (a / 1440)
  obtain ⟨rb, yb1, mb1, mb2, db1, db2⟩ := civilFromDays_spec (b / 1440)
  have hDa : a / 1440 < daysBeforeYear 10000 := by unfold isoMax at ha; omega
  have hDb : b / 1440 < daysBeforeYear 10000 := by unfold isoMax at hb; omega
  have hya : (civilFromDays (a / 1440)).1 ≤ 9999 := civilFromDays_year_le _ hDa
  have hyb : (civilFromDays (b / 1440)).1 ≤ 9999 := civilFromDays_year_le _ hDb
  have h4 : (10 : Nat) ^ 4 = 10000 := by norm_num
  have h2 : (10 : Nat) ^ 2 = 100 := by norm_num
  have hdima := daysInMonth_le (civilFromDays (a / 1440)).1 (civilFromDays (a / 1440)).2.1
  have hdimb := daysInMonth_le (civilFromDays (b / 1440)).1 (civilFromDays (b / 1440)).2.1
  have hta : a % 1440 < 1440 := Nat.mod_lt _ (by norm_num)
  have htb : b % 1440 < 1440 := Nat.mod_lt _ (by norm_num)
  unfold isoMin
  simp only []
  rw [lexCmp_pad 4 _ _ _ _ (by omega) (by omega), lexCmp_cons_same,
    lexCmp_pad 2 _ _ _ _ (by omega) (by omega), lexCmp_cons_same,
    lexCmp_pad 2 _ _ _ _ (by omega) (by omega), lexCmp_cons_same,
    lexCmp_pad 2 _ _ _ _ (by omega) (by omega), lexCmp_cons_same,
    lexCmp_pad 2 _ _ _ _ (by omega) (by omega), lexCmp_cons_same,
    lexCmp_same, ordering_then_eq,
    compare_divmod 60 _ _ _ _ (by omega) (by omega), Nat.div_add_mod, Nat.div_add_mod]
  have hsplit : (compare (a / 1440) (b / 1440)).then (compare (a % 1440) (b % 1440)) =
      compare a b := by
    rw [compare_divmod 1440 _ _ _ _ hta htb, Nat.div_add_mod, Nat.div_add_mod]
  rw [← hsplit]
  have h3 := compare3_rataDie (civilFromDays (a / 1440)).1 (civilFromDays (a / 1440)).2.1
    (civilFromDays (a / 1440)).2.2 (civilFromDays (b / 1440)).1 (civilFromDays (b / 1440)).2.1
    (civilFromDays (b / 1440)).2.2 ya1 ma1 ma2 da1 da2 yb1 mb1 mb2 db1 db2
  rw [ra, rb] at h3
  rw [← h3]
  cases compare (civilFromDays (a / 1440)).1 (civilFromDays (b / 1440)).1 <;>
    cases compare (civilFromDays (a / 1440)).2.1 (civilFromDays (b / 1440)).2.1 <;>
    cases compare (civilFromDays (a / 1440)).2.2 (civilFromDays (b / 1440)).2.2 <;> rfl

theorem strLt_isoMin (a b : Nat) (ha : a < isoMax) (hb : b < isoMax) :
    strLt (isoMin a) (isoMin b) = true ↔ a < b := by
  unfold strLt
  rw [lexCmp_isoMin a b ha hb, beq_lt_iff]
  exact Nat.compare_eq_lt

theorem strGt_isoMin (a b : Nat) (ha : a < isoMax) (hb : b < isoMax) :
    strGt (isoMin a) (isoMin b) = true ↔ b < a := by
  unfold strGt
  rw [lexCmp_isoMin a b ha hb, beq_gt_iff]
  exact Nat.compare_eq_gt

theorem strGe_isoMin (a b : Nat) (ha : a < isoMax) (hb : b < isoMax) :
    strGe (isoMin a) (isoMin b) = true ↔ b ≤ a := by
  unfold strGe
  rw [lexCmp_isoMin a b ha hb, bnot_beq_lt_iff, Nat.compare_eq_lt]
  omega

/-! ### Parser round trip -/

theorem fromIso?_digits (y mo d h mi : Nat) (hy1 : 1 ≤ y) (hy9 : y ≤ 9999)
    (hmo1 : 1 ≤ mo) (hmo2 : mo ≤ 12) (hd1 : 1 ≤ d) (hd2 : d ≤ daysInMonth y mo)
    (hh : h < 24) (hmi : mi < 60) :
    fromIso? [48 + y / 1000, 48 + y % 1000 / 100, 48 + y % 1000 % 100 / 10,
      48 + y % 1000 % 100 % 10, 45, 48 + mo / 10, 48 + mo % 10, 45,
      48 + d / 10, 48 + d % 10, 84, 48 + h / 10, 48 + h % 10, 58,
      48 + mi / 10, 48 + mi % 10, 58, 48, 48] =
      some (rataDie y mo d * 1440 + h * 60 + mi) := by
  have hdim := daysInMonth_le y mo
  have e1 : (48 + y / 1000 - 48) * 1000 + (48 + y % 1000 / 100 - 48) * 100 +
      (48 + y % 1000 % 100 / 10 - 48) * 10 + (48 + y % 1000 % 100 % 10 - 48) = y := by
    omega
  have e2 : (48 + mo / 10 - 48) * 10 + (48 + mo % 10 - 48) = mo := by omega
  have e3 : (48 + d / 10 - 48) * 10 + (48 + d % 10 - 48) = d := by omega
  have e4 : (48 + h / 10 - 48) * 10 + (48 + h % 10 - 48) = h := by omega
  have e5 : (48 + mi / 10 - 48) * 10 + (48 + mi % 10 - 48) = mi := by omega
  simp only [fromIso?]
  split
  · rw [e1, e2, e3, e4, e5]
    rw [if_pos ⟨hy1, hmo1, hmo2, hd1, hd2, hh, hmi⟩]
  · rename_i hc
    refine absurd ?_ hc
    simp only [true_and, and_true]
    omega

/-- datetime.fromisoformat recovers exactly the instant that isoformat
rendered: parsing inverts formatting for every four-digit-year instant. -/
theorem fromIso?_isoMin (n : Nat) (hn : n < isoMax) : fromIso? (isoMin n) = some n := by
  obtain ⟨ra, hy1, hm1, hm2, hd1, hd2⟩ := civilFromDays_spec (n / 1440)
  have hy9 : (civilFromDays (n / 1440)).1 ≤ 9999 :=
    civilFromDays_year_le _ (by unfold isoMax at hn; omega)
  have ht : n % 1440 < 1440 := Nat.mod_lt _ (by norm_num)
  have hiso : isoMin n = [48 + (civilFromDays (n / 1440)).1 / 1000,
      48 + (civilFromDays (n / 1440)).1 % 1000 / 100,
      48 + (civilFromDays (n / 1440)).1 % 1000 % 100 / 10,
      48 + (civilFromDays (n / 1440)).1 % 1000 % 100 % 10, 45,
      48 + (civilFromDays (n / 1440)).2.1 / 10, 48 + (civilFromDays (n / 1440)).2.1 % 10, 45,
      48 + (civilFromDays (n / 1440)).2.2 / 10, 48 + (civilFromDays (n / 1440)).2.2 % 10, 84,
      48 + n % 1440 / 60 / 10, 48 + n % 1440 / 60 % 10, 58,
      48 + n % 1440 % 60 / 10, 48 + n % 1440 % 60 % 10, 58, 48, 48] := by
    simp [isoMin, pad]
  rw [hiso, fromIso?_digits _ _ _ _ _ hy1 hy9 hm1 hm2 hd1 hd2 (by omega) (by omega), ra]
  exact congrArg some (by omega)

/-! ### Behavior lemmas for the two endpoints -/

theorem create_booking_invalidDate (store : Store) (req : BookingRequest)
    (hv : ¬ validDate req.y req.mo req.d) :
    create_booking store req = (.error .invalidDate, store) := by
  unfold create_booking
  rw [if_neg hv]

theorem create_booking_weekend (store : Store) (req : BookingRequest)
    (hv : validDate req.y req.mo req.d) (hw : 5 ≤ weekday req.y req.mo req.d) :
    create_booking store req = (.error .weekendNotAllowed, store) := by
  unfold create_booking
  rw [if_pos hv, if_pos hw]

theorem create_booking_badTime (store : Store) (req : BookingRequest)
    (hv : validDate req.y req.mo req.d) (hw : weekday req.y req.mo req.d < 5)
    (ht : ¬ (req.hh < 24 ∧ req.mi < 60)) :
    create_booking store req = (.error .invalidTime, store) := by
  unfold create_booking
  rw [if_pos hv, if_neg (show ¬ 5 ≤ weekday req.y req.mo req.d by omega), if_neg ht]

theorem create_booking_outsideHours (store : Store) (req : BookingRequest)
    (hv : validDate req.y req.mo req.d) (hw : weekday req.y req.mo req.d < 5)
    (ht : req.hh < 24 ∧ req.mi < 60)
    (hbh : ¬ (START_HOUR_IST ≤ req.hh ∧ req.hh < END_HOUR_IST)) :
    create_booking store req = (.error .outsideHours, store) := by
  unfold create_booking
  rw [if_pos hv, if_neg (show ¬ 5 ≤ weekday req.y req.mo req.d by omega), if_pos ht,
    if_neg hbh]

theorem create_booking_conflict (store : Store) (req : BookingRequest) (w : BookingDoc)
    (hv : validDate req.y req.mo req.d) (hw : weekday req.y req.mo req.d < 5)
    (ht : req.hh < 24 ∧ req.mi < 60)
    (hbh : START_HOUR_IST ≤ req.hh ∧ req.hh < END_HOUR_IST)
    (hfind : store.find? (conflictQuery (startUTCOf req) (startUTCOf req + SLOT_MINUTES)) =
      some w) :
    create_booking store req = (.error .slotTaken, store) := by
  unfold create_booking
  rw [if_pos hv, if_neg (show ¬ 5 ≤ weekday req.y req.mo req.d by omega), if_pos ht,
    if_pos hbh]
  simp only []
  rw [hfind]

theorem create_booking_success (store : Store) (req : BookingRequest)
    (hv : validDate req.y req.mo req.d) (hw : weekday req.y req.mo req.d < 5)
    (ht : req.hh < 24 ∧ req.mi < 60)
    (hbh : START_HOUR_IST ≤ req.hh ∧ req.hh < END_HOUR_IST)
    (hfind : store.find? (conflictQuery (startUTCOf req) (startUTCOf req + SLOT_MINUTES)) =
      none) :
    create_booking store req = (.ok (respOf req), store ++ [bookingDocOf req]) := by
  unfold create_booking
  rw [if_pos hv, if_neg (show ¬ 5 ≤ weekday req.y req.mo req.d by omega), if_pos ht,
    if_pos hbh]
  simp only []
  rw [hfind]
  rfl

theorem get_availability_invalid (store : Store) (y mo d : Nat)
    (hv : ¬ validDate y mo d) :
    get_availability store y mo d = .error .invalidDate := by
  unfold get_availability
  rw [if_neg hv]

theorem get_availability_weekend' (store : Store) (y mo d : Nat)
    (hv : validDate y mo d) (hw : 5 ≤ weekday y mo d) :
    get_availability store y mo d = .ok [] := by
  unfold get_availability
  rw [if_pos hv, if_pos hw]

/-- On a weekday date away from both calendar boundaries, get_availability
reduces to the grid-minus-taken computation. -/
theorem get_availability_open (store : Store) (y mo d : Nat)
    (hv : validDate y mo d) (hw : weekday y mo d < 5)
    (ho1 : 1 ≤ rataDie y mo d) (ho2 : rataDie y mo d + 1 < daysBeforeYear 10000) :
    get_availability store y mo d = .ok ((genSlots 48 (START_HOUR_IST * 60)).filter
      (fun slot => decide (¬ slot ∈
        (store.filter (dayWindowQuery (to_utc_from_ist (rataDie y mo d * 1440) 0)
          (to_utc_from_ist ((rataDie y mo d + 1) * 1440) 0))).filterMap (fun doc =>
            match fromIso? doc.start_utc_iso, fromIso? doc.end_utc_iso with
            | some s, some _ => some (hhmm ((s + IST_OFFSET) % 1440))
            | _, _ => none)))) := by
  have hIST : IST_OFFSET = 330 := rfl
  unfold get_availability
  rw [if_pos hv, if_neg (show ¬ 5 ≤ weekday y mo d by omega)]
  simp only []
  rw [if_neg (show ¬ rataDie y mo d * 1440 < IST_OFFSET by omega),
    if_neg (show ¬ daysBeforeYear 10000 ≤ rataDie y mo d + 1 by omega)]

/-- On the last representable date 9999-12-31 (and only there among valid
weekday dates with day number at least 1), the day-window arithmetic
leaves Python's datetime range: date_dt + timedelta(days=1) raises
OverflowError before the store is touched. -/
theorem get_availability_overflow (store : Store) (y mo d : Nat)
    (hv : validDate y mo d) (hw : weekday y mo d < 5)
    (ho1 : 1 ≤ rataDie y mo d) (ho : daysBeforeYear 10000 ≤ rataDie y mo d + 1) :
    get_availability store y mo d = .error .dateOverflow := by
  have hIST : IST_OFFSET = 330 := rfl
  unfold get_availability
  rw [if_pos hv, if_neg (show ¬ 5 ≤ weekday y mo d by omega)]
  simp only []
  rw [if_neg (show ¬ rataDie y mo d * 1440 < IST_OFFSET by omega), if_pos ho]

/-- The slot grid the while-loop produces: 16 half-hour slots from 09:00
to 16:30. -/
theorem genSlots_eq : genSlots 48 (START_HOUR_IST * 60) = fullGrid := by
  decide

/-- Every valid date lies strictly before year 10000, so all instants this
service computes for it have four-digit-year ISO renderings. -/
theorem rataDie_lt_max (y mo d : Nat) (hv : validDate y mo d) :
    rataDie y mo d < daysBeforeYear 10000 := by
  obtain ⟨hy1, hy9, hm1, hm2, hd1, hd2⟩ := hv
  exact rataDie_lt_year y mo d 10000 hy1 hm1 hm2 hd2 (by omega)

/-- Inversion of a successful booking: every validation passed, the
conflict query found nothing, and the store gained exactly the new
document. -/
theorem create_booking_ok_inv (store : Store) (req : BookingRequest)
    (resp : BookingResponse) (h : (create_booking store req).1 = .ok resp) :
    validDate req.y req.mo req.d ∧ weekday req.y req.mo req.d < 5 ∧
    (req.hh < 24 ∧ req.mi < 60) ∧
    (START_HOUR_IST ≤ req.hh ∧ req.hh < END_HOUR_IST) ∧
    store.find? (conflictQuery (startUTCOf req) (startUTCOf req + SLOT_MINUTES)) = none ∧
    resp = respOf req ∧
    (create_booking store req).2 = store ++ [bookingDocOf req] := by
  by_cases hv : validDate req.y req.mo req.d
  · by_cases hw : 5 ≤ weekday req.y req.mo req.d
    · rw [create_booking_weekend store req hv hw] at h
      simp at h
    · by_cases ht : req.hh < 24 ∧ req.mi < 60
      · by_cases hbh : START_HOUR_IST ≤ req.hh ∧ req.hh < END_HOUR_IST
        · cases hfind : store.find?
            (conflictQuery (startUTCOf req) (startUTCOf req + SLOT_MINUTES)) with
          | some w =>
            rw [create_booking_conflict store req w hv (by omega) ht hbh hfind] at h
            simp at h
          | none =>
            rw [create_booking_success store req hv (by omega) ht hbh hfind] at h
            simp at h
            exact ⟨hv, by omega, ht, hbh, rfl, h.symm,
              by rw [create_booking_success store req hv (by omega) ht hbh hfind]⟩
        · rw [create_booking_outsideHours store req hv (by omega) ht hbh] at h
          simp at h
      · rw [create_booking_badTime store req hv (by omega) ht] at h
        simp at h
  · rw [create_booking_invalidDate store req hv] at h
    simp at h

/-- Both instants create_booking computes for an accepted request have
four-digit-year ISO renderings. -/
theorem startUTC_bounds (req : BookingRequest) (hv : validDate req.y req.mo req.d)
    (ht : req.hh < 24 ∧ req.mi < 60) :
    startUTCOf req < isoMax ∧ startUTCOf req + SLOT_MINUTES < isoMax := by
  have hu : startUTCOf req =
      rataDie req.y req.mo req.d * 1440 + (req.hh * 60 + req.mi) - IST_OFFSET := rfl
  have hIST : IST_OFFSET = 330 := rfl
  have hSLOT : SLOT_MINUTES = 30 := rfl
  have hmax := rataDie_lt_max req.y req.mo req.d hv
  have hiso : isoMax = 1440 * daysBeforeYear 10000 := rfl
  omega

/-! ### Claim theorems -/

/-- C1 (amended): for every store state in which the conflict query matches
no stored booking against the requested interval, and every valid weekday
date/time request, booking the same date+time twice yields: the first call
returns the confirmed response, and the second call returns the slot-taken
conflict error, whose HTTP status is 409, because the interval written by
the first call overlaps the identical interval of the second request under
the half-open overlap test. -/
theorem booking_twice_conflict (store : Store) (req : BookingRequest)
    (hv : validDate req.y req.mo req.d) (hw : weekday req.y req.mo req.d < 5)
    (ht : req.hh < 24 ∧ req.mi < 60)
    (hbh : START_HOUR_IST ≤ req.hh ∧ req.hh < END_HOUR_IST)
    (hfree : ∀ doc ∈ store,
      ¬ conflictQuery (startUTCOf req) (startUTCOf req + SLOT_MINUTES) doc = true) :
    (create_booking store req).1 = .ok (respOf req) ∧
    (create_booking (create_booking store req).2 req).1 = .error .slotTaken ∧
    BookingError.statusCode .slotTaken = 409 := by
  obtain ⟨hbs, hbe⟩ := startUTC_bounds req hv ht
  have hSLOT : SLOT_MINUTES = 30 := rfl
  have hfind : store.find?
      (conflictQuery (startUTCOf req) (startUTCOf req + SLOT_MINUTES)) = none :=
    List.find?_eq_none.mpr hfree
  have h1 := create_booking_success store req hv hw ht hbh hfind
  have hq : conflictQuery (startUTCOf req) (startUTCOf req + SLOT_MINUTES)
      (bookingDocOf req) = true := by
    have hds : (bookingDocOf req).start_utc_iso = isoMin (startUTCOf req) := rfl
    have hde : (bookingDocOf req).end_utc_iso =
      isoMin (startUTCOf req + SLOT_MINUTES) := rfl
    unfold conflictQuery
    rw [hds, hde]
    simp only [Bool.and_eq_true]
    exact ⟨(strLt_isoMin _ _ hbs hbe).mpr (by omega),
           (strGt_isoMin _ _ hbe hbs).mpr (by omega)⟩
  have hfind2 : (store ++ [bookingDocOf req]).find?
      (conflictQuery (startUTCOf req) (startUTCOf req + SLOT_MINUTES)) =
      some (bookingDocOf req) := by
    rw [List.find?_append, hfind]
    simp [List.find?, hq]
  refine ⟨by rw [h1], ?_, rfl⟩
  have h2 : (create_booking store req).2 = store ++ [bookingDocOf req] := by rw [h1]
  rw [h2, create_booking_conflict (store ++ [bookingDocOf req]) req (bookingDocOf req)
    hv hw ht hbh hfind2]

/-- C1 counterexample: on the (reachable) store state already holding the
2024-06-10 10:00 booking, the first of the two identical booking calls is
rejected with the conflict error rather than confirmed, so the claim is
false when quantified over every store state. -/
theorem booking_twice_claim_counterexample :
    (create_booking ((create_booking [] reqA).2) reqA).1 =
      Except.error BookingError.slotTaken ∧
    (Except.error BookingError.slotTaken : Except BookingError BookingResponse) ≠
      Except.ok (respOf reqA) := by
  decide

/-- C1 witness: the amended theorem applied to the empty store and the
concrete Monday request 2024-06-10 10:00. -/
theorem booking_twice_conflict_witness :
    (create_booking [] reqA).1 = .ok (respOf reqA) ∧
    (create_booking (create_booking [] reqA).2 reqA).1 = .error .slotTaken ∧
    BookingError.statusCode .slotTaken = 409 :=
  booking_twice_conflict [] reqA (by decide) (by decide) (by decide) (by decide)
    (by intro doc hdoc; simp at hdoc)

/-- C2 (amended): on every valid weekday date other than the two
calendar-boundary dates 0001-01-01 and 9999-12-31 (where the day-window
datetime arithmetic leaves Python's range and the request fails), with
every store whose (canonically stored) bookings all start outside the
day's UTC window, the availability query returns exactly the 16 strings
09:00, 09:30, ..., 16:30 in ascending order. -/
theorem availability_full_grid (store : Store) (y mo d : Nat)
    (hv : validDate y mo d) (hw : weekday y mo d < 5) (hr : 1 ≤ rataDie y mo d)
    (hlast : rataDie y mo d + 1 < daysBeforeYear 10000)
    (hstore : ∀ doc ∈ store, ∃ n, n < isoMax ∧ doc.start_utc_iso = isoMin n ∧
      (n < rataDie y mo d * 1440 - IST_OFFSET ∨
       (rataDie y mo d + 1) * 1440 - IST_OFFSET ≤ n)) :
    get_availability store y mo d = .ok fullGrid := by
  have hIST : IST_OFFSET = 330 := rfl
  have hisoM : isoMax = 1440 * daysBeforeYear 10000 := rfl
  have hmax := rataDie_lt_max y mo d hv
  have hu1 : to_utc_from_ist (rataDie y mo d * 1440) 0 =
      rataDie y mo d * 1440 - IST_OFFSET := rfl
  have hu2 : to_utc_from_ist ((rataDie y mo d + 1) * 1440) 0 =
      (rataDie y mo d + 1) * 1440 - IST_OFFSET := rfl
  have hb1 : rataDie y mo d * 1440 - IST_OFFSET < isoMax := by omega
  have hb2 : (rataDie y mo d + 1) * 1440 - IST_OFFSET < isoMax := by omega
  rw [get_availability_open store y mo d hv hw hr hlast]
  have hfilter : store.filter (dayWindowQuery (to_utc_from_ist (rataDie y mo d * 1440) 0)
      (to_utc_from_ist ((rataDie y mo d + 1) * 1440) 0)) = [] := by
    rw [List.filter_eq_nil_iff]
    intro doc hdoc
    obtain ⟨n, hn, hs, hout⟩ := hstore doc hdoc
    unfold dayWindowQuery
    rw [hs, hu1, hu2]
    simp only [Bool.and_eq_true, not_and]
    intro h1 h2
    rw [strGe_isoMin n _ hn hb1] at h1
    rw [strLt_isoMin n _ hn hb2] at h2
    omega
  rw [hfilter, genSlots_eq]
  decide

/-- C2 counterexample: 9999-12-31 is a valid date, falls on a Friday, and
has no bookings stored for it (the store is empty), yet availability does
not return the 16-slot grid: the computation date_dt + timedelta(days=1)
overflows Python's datetime range, so the request fails with an unhandled
OverflowError instead. -/
theorem availability_full_grid_claim_counterexample :
    validDate 9999 12 31 ∧ weekday 9999 12 31 < 5 ∧
    get_availability [] 9999 12 31 = .error .dateOverflow ∧
    (Except.error AvailabilityError.dateOverflow :
      Except AvailabilityError (List (List Nat))) ≠ .ok fullGrid := by
  decide

/-- C2 witness: the empty store on Monday 2024-06-10. -/
theorem availability_full_grid_witness :
    get_availability [] 2024 6 10 = .ok fullGrid :=
  availability_full_grid [] 2024 6 10 (by decide) (by decide) (by decide) (by decide)
    (by intro doc hdoc; simp at hdoc)

/-- C3: after any successful booking, the availability query on the same
date no longer lists the booked HH:MM slot: the stored UTC start instant
converts back (via the +5:30 offset) exactly to the booked slot string,
which is removed from the generated grid. -/
theorem booked_slot_not_listed (store : Store) (req : BookingRequest)
    (resp : BookingResponse) (L : List (List Nat))
    (hr : 1 ≤ rataDie req.y req.mo req.d)
    (hok : (create_booking store req).1 = .ok resp)
    (hav : get_availability (create_booking store req).2 req.y req.mo req.d = .ok L) :
    hhmm (req.hh * 60 + req.mi) ∉ L := by
  obtain ⟨hv, hw, ht, hbh, hfind, hresp, hsnd⟩ := create_booking_ok_inv store req resp hok
  obtain ⟨hbs, hbe⟩ := startUTC_bounds req hv ht
  have hIST : IST_OFFSET = 330 := rfl
  have hSLOT : SLOT_MINUTES = 30 := rfl
  have hS : START_HOUR_IST = 9 := rfl
  have hE : END_HOUR_IST = 17 := rfl
  have hisoM : isoMax = 1440 * daysBeforeYear 10000 := rfl
  have hmax := rataDie_lt_max req.y req.mo req.d hv
  have hu : startUTCOf req =
      rataDie req.y req.mo req.d * 1440 + (req.hh * 60 + req.mi) - IST_OFFSET := rfl
  have hu1 : to_utc_from_ist (rataDie req.y req.mo req.d * 1440) 0 =
      rataDie req.y req.mo req.d * 1440 - IST_OFFSET := rfl
  have hu2 : to_utc_from_ist ((rataDie req.y req.mo req.d + 1) * 1440) 0 =
      (rataDie req.y req.mo req.d + 1) * 1440 - IST_OFFSET := rfl
  have hb1 : rataDie req.y req.mo req.d * 1440 - IST_OFFSET < isoMax := by omega
  have hb2 : (rataDie req.y req.mo req.d + 1) * 1440 - IST_OFFSET < isoMax := by omega
  by_cases hlast : daysBeforeYear 10000 ≤ rataDie req.y req.mo req.d + 1
  · rw [hsnd, get_availability_overflow _ _ _ _ hv hw hr hlast] at hav
    simp at hav
  rw [hsnd, get_availability_open _ _ _ _ hv hw hr (by omega)] at hav
  have hL : L = (genSlots 48 (START_HOUR_IST * 60)).filter
      (fun slot => decide (¬ slot ∈
        ((store ++ [bookingDocOf req]).filter
          (dayWindowQuery (to_utc_from_ist (rataDie req.y req.mo req.d * 1440) 0)
            (to_utc_from_ist ((rataDie req.y req.mo req.d + 1) * 1440) 0))).filterMap
          (fun doc =>
            match fromIso? doc.start_utc_iso, fromIso? doc.end_utc_iso with
            | some s, some _ => some (hhmm ((s + IST_OFFSET) % 1440))
            | _, _ => none))) := (Except.ok.inj hav).symm
  have hwin : dayWindowQuery (to_utc_from_ist (rataDie req.y req.mo req.d * 1440) 0)
      (to_utc_from_ist ((rataDie req.y req.mo req.d + 1) * 1440) 0)
      (bookingDocOf req) = true := by
    have hds : (bookingDocOf req).start_utc_iso = isoMin (startUTCOf req) := rfl
    unfold dayWindowQuery
    rw [hds, hu1, hu2]
    simp only [Bool.and_eq_true]
    exact ⟨(strGe_isoMin _ _ hbs hb1).mpr (by omega),
           (strLt_isoMin _ _ hbs hb2).mpr (by omega)⟩
  have harr : (startUTCOf req + IST_OFFSET) % 1440 = req.hh * 60 + req.mi := by omega
  have htaken : hhmm (req.hh * 60 + req.mi) ∈
      ((store ++ [bookingDocOf req]).filter
        (dayWindowQuery (to_utc_from_ist (rataDie req.y req.mo req.d * 1440) 0)
          (to_utc_from_ist ((rataDie req.y req.mo req.d + 1) * 1440) 0))).filterMap
        (fun doc =>
          match fromIso? doc.start_utc_iso, fromIso? doc.end_utc_iso with
          | some s, some _ => some (hhmm ((s + IST_OFFSET) % 1440))
          | _, _ => none) := by
    refine List.mem_filterMap.mpr ⟨bookingDocOf req, List.mem_filter.mpr
      ⟨List.mem_append_right store (List.mem_singleton_self _), hwin⟩, ?_⟩
    have hds : (bookingDocOf req).start_utc_iso = isoMin (startUTCOf req) := rfl
    have hde : (bookingDocOf req).end_utc_iso =
      isoMin (startUTCOf req + SLOT_MINUTES) := rfl
    rw [hds, hde, fromIso?_isoMin _ hbs, fromIso?_isoMin _ hbe]
    show some (hhmm ((startUTCOf req + IST_OFFSET) % 1440)) =
      some (hhmm (req.hh * 60 + req.mi))
    rw [harr]
  rw [hL]
  intro hmem
  obtain ⟨hmem1, hpred⟩ := List.mem_filter.mp hmem
  exact (of_decide_eq_true hpred) htaken

/-- C3 witness: booking 10:00 on Monday 2024-06-10 into the empty store,
then querying that date. -/
theorem booked_slot_not_listed_witness :
    hhmm (reqA.hh * 60 + reqA.mi) ∉ fullGrid.erase (encodeStr "10:00") :=
  booked_slot_not_listed [] reqA (respOf reqA) (fullGrid.erase (encodeStr "10:00"))
    (by decide) (by decide) (by decide)

/-- C4: for every request the booking writer accepts, the stored interval
strings parse back to the computed start instant and to start + 30
minutes, and that start instant shifted by the +5:30 offset equals the
requested local date and time. -/
theorem booking_roundtrip (store : Store) (req : BookingRequest)
    (resp : BookingResponse) (st2 : Store)
    (h : create_booking store req = (.ok resp, st2)) :
    st2 = store ++ [bookingDocOf req] ∧
    fromIso? (bookingDocOf req).start_utc_iso = some (startUTCOf req) ∧
    fromIso? (bookingDocOf req).end_utc_iso = some (startUTCOf req + SLOT_MINUTES) ∧
    startUTCOf req + IST_OFFSET =
      rataDie req.y req.mo req.d * 1440 + (req.hh * 60 + req.mi) := by
  have h1 : (create_booking store req).1 = .ok resp := by rw [h]
  obtain ⟨hv, hw, ht, hbh, hfind, hresp, hsnd⟩ := create_booking_ok_inv store req resp h1
  obtain ⟨hbs, hbe⟩ := startUTC_bounds req hv ht
  have hIST : IST_OFFSET = 330 := rfl
  have hS : START_HOUR_IST = 9 := rfl
  have hu : startUTCOf req =
      rataDie req.y req.mo req.d * 1440 + (req.hh * 60 + req.mi) - IST_OFFSET := rfl
  have hds : (bookingDocOf req).start_utc_iso = isoMin (startUTCOf req) := rfl
  have hde : (bookingDocOf req).end_utc_iso =
    isoMin (startUTCOf req + SLOT_MINUTES) := rfl
  have h2 : (create_booking store req).2 = st2 := by rw [h]
  refine ⟨?_, ?_, ?_, ?_⟩
  · rw [← h2, hsnd]
  · rw [hds, fromIso?_isoMin _ hbs]
  · rw [hde, fromIso?_isoMin _ hbe]
  · omega

/-- C4 witness: the concrete 2024-06-10 10:00 booking into the empty
store. -/
theorem booking_roundtrip_witness :
    (create_booking [] reqA).2 = [] ++ [bookingDocOf reqA] ∧
    fromIso? (bookingDocOf reqA).start_utc_iso = some (startUTCOf reqA) ∧
    fromIso? (bookingDocOf reqA).end_utc_iso =
      some (startUTCOf reqA + SLOT_MINUTES) ∧
    startUTCOf reqA + IST_OFFSET =
      rataDie reqA.y reqA.mo reqA.d * 1440 + (reqA.hh * 60 + reqA.mi) :=
  booking_roundtrip [] reqA (respOf reqA) ((create_booking [] reqA).2) (by decide)

/-- C5: for valid weekday requests with well-formed times, the writer
rejects with the out-of-hours business-rule error exactly when the
requested time lies outside 09:00 (inclusive) to 17:00 (exclusive); in
particular 08:30 and 17:00 are rejected while the off-grid 09:15 passes
the check, since only the hour is compared (which coincides with the
minute-level bound for well-formed times). -/
theorem business_hours_check (store : Store) (req : BookingRequest)
    (hv : validDate req.y req.mo req.d) (hw : weekday req.y req.mo req.d < 5)
    (ht : req.hh < 24 ∧ req.mi < 60) :
    ((create_booking store req).1 = .error .outsideHours ↔
      ¬ (START_HOUR_IST * 60 ≤ req.hh * 60 + req.mi ∧
         req.hh * 60 + req.mi < END_HOUR_IST * 60)) ∧
    (create_booking store { req with hh := 8, mi := 30 }).1 = .error .outsideHours ∧
    (create_booking store { req with hh := 17, mi := 0 }).1 = .error .outsideHours ∧
    (create_booking store { req with hh := 9, mi := 15 }).1 ≠ .error .outsideHours := by
  have hS : START_HOUR_IST = 9 := rfl
  have hE : END_HOUR_IST = 17 := rfl
  refine ⟨?_, ?_, ?_, ?_⟩
  · by_cases hbh : START_HOUR_IST ≤ req.hh ∧ req.hh < END_HOUR_IST
    · have hne : (create_booking store req).1 ≠ .error .outsideHours := by
        cases hfind : store.find?
            (conflictQuery (startUTCOf req) (startUTCOf req + SLOT_MINUTES)) with
        | some w =>
          rw [create_booking_conflict store req w hv hw ht hbh hfind]
          simp
        | none =>
          rw [create_booking_success store req hv hw ht hbh hfind]
          simp
      refine iff_of_false hne ?_
      intro hx
      exact hx ⟨by omega, by omega⟩
    · rw [create_booking_outsideHours store req hv hw ht hbh]
      refine iff_of_true rfl ?_
      intro hx
      exact hbh ⟨by omega, by omega⟩
  · rw [create_booking_outsideHours store { req with hh := 8, mi := 30 } hv hw
      ⟨(by decide : (8 : Nat) < 24), (by decide : (30 : Nat) < 60)⟩
      (by decide : ¬ ((9 : Nat) ≤ 8 ∧ (8 : Nat) < 17))]
  · rw [create_booking_outsideHours store { req with hh := 17, mi := 0 } hv hw
      ⟨(by decide : (17 : Nat) < 24), (by decide : (0 : Nat) < 60)⟩
      (by decide : ¬ ((9 : Nat) ≤ 17 ∧ (17 : Nat) < 17))]
  · have hbh : START_HOUR_IST ≤ ({ req with hh := 9, mi := 15 } : BookingRequest).hh ∧
        ({ req with hh := 9, mi := 15 } : BookingRequest).hh < END_HOUR_IST :=
      ⟨(by decide : (9 : Nat) ≤ 9), (by decide : (9 : Nat) < 17)⟩
    cases hfind : store.find? (conflictQuery (startUTCOf { req with hh := 9, mi := 15 })
        (startUTCOf { req with hh := 9, mi := 15 } + SLOT_MINUTES)) with
    | some w =>
      rw [create_booking_conflict store { req with hh := 9, mi := 15 } w hv hw
        ⟨(by decide : (9 : Nat) < 24), (by decide : (15 : Nat) < 60)⟩ hbh hfind]
      simp
    | none =>
      rw [create_booking_success store { req with hh := 9, mi := 15 } hv hw
        ⟨(by decide : (9 : Nat) < 24), (by decide : (15 : Nat) < 60)⟩ hbh hfind]
      simp

/-- C5 witness: the empty store and the concrete Monday request. -/
theorem business_hours_check_witness :
    ((create_booking [] reqA).1 = .error .outsideHours ↔
      ¬ (START_HOUR_IST * 60 ≤ reqA.hh * 60 + reqA.mi ∧
         reqA.hh * 60 + reqA.mi < END_HOUR_IST * 60)) ∧
    (create_booking [] { reqA with hh := 8, mi := 30 }).1 = .error .outsideHours ∧
    (create_booking [] { reqA with hh := 17, mi := 0 }).1 = .error .outsideHours ∧
    (create_booking [] { reqA with hh := 9, mi := 15 }).1 ≠ .error .outsideHours :=
  business_hours_check [] reqA (by decide) (by decide) (by decide)

/-- C6 (amended): for half-open intervals that are nonempty (start strictly
before end), the overlap test a.start < b.end AND b.start < a.end returns
true exactly when the two intervals share an instant. -/
theorem overlaps_iff_sharesInstant (a_start a_end b_start b_end : Nat)
    (ha : a_start < a_end) (hb : b_start < b_end) :
    overlaps a_start a_end b_start b_end = true ↔
      sharesInstant a_start a_end b_start b_end := by
  unfold overlaps sharesInstant
  simp only [Bool.and_eq_true, decide_eq_true_eq]
  constructor
  · rintro ⟨h1, h2⟩
    exact ⟨max a_start b_start, ⟨by omega, by omega⟩, by omega, by omega⟩
  · rintro ⟨t, ⟨ht1, ht2⟩, ht3, ht4⟩
    exact ⟨by omega, by omega⟩

/-- C6 counterexample: with the empty interval [5, 5) against [0, 10) the
test returns true although no instant is shared, so the biconditional
fails for arbitrary (possibly empty) interval pairs. -/
theorem overlaps_claim_counterexample :
    overlaps 5 5 0 10 = true ∧ ¬ sharesInstant 5 5 0 10 := by
  constructor
  · decide
  · rintro ⟨t, ⟨ht1, ht2⟩, _⟩
    omega

/-- C6 witness: the amended equivalence at the nonempty intervals [0, 10)
and [5, 15). -/
theorem overlaps_iff_sharesInstant_witness :
    overlaps 0 10 5 15 = true ↔ sharesInstant 0 10 5 15 :=
  overlaps_iff_sharesInstant 0 10 5 15 (by decide) (by decide)

/-- C7: every error outcome of the booking writer leaves the store
untouched, and the weekend and out-of-hours rejections are independent of
the store: for every store the writer returns the same error with the
store unchanged, before any store access. -/
theorem errors_leave_store_unchanged :
    (∀ (store : Store) (req : BookingRequest) (e : BookingError),
      (create_booking store req).1 = .error e → (create_booking store req).2 = store) ∧
    (∀ req : BookingRequest, validDate req.y req.mo req.d →
      5 ≤ weekday req.y req.mo req.d →
      ∀ store : Store, create_booking store req = (.error .weekendNotAllowed, store)) ∧
    (∀ req : BookingRequest, validDate req.y req.mo req.d →
      weekday req.y req.mo req.d < 5 → (req.hh < 24 ∧ req.mi < 60) →
      ¬ (START_HOUR_IST ≤ req.hh ∧ req.hh < END_HOUR_IST) →
      ∀ store : Store, create_booking store req = (.error .outsideHours, store)) := by
  refine ⟨?_, ?_, ?_⟩
  · intro store req e h
    by_cases hv : validDate req.y req.mo req.d
    · by_cases hw : 5 ≤ weekday req.y req.mo req.d
      · rw [create_booking_weekend store req hv hw]
      · by_cases ht : req.hh < 24 ∧ req.mi < 60
        · by_cases hbh : START_HOUR_IST ≤ req.hh ∧ req.hh < END_HOUR_IST
          · cases hfind : store.find?
                (conflictQuery (startUTCOf req) (startUTCOf req + SLOT_MINUTES)) with
            | some w => rw [create_booking_conflict store req w hv (by omega) ht hbh hfind]
            | none =>
              rw [create_booking_success store req hv (by omega) ht hbh hfind] at h
              simp at h
          · rw [create_booking_outsideHours store req hv (by omega) ht hbh]
        · rw [create_booking_badTime store req hv (by omega) ht]
    · rw [create_booking_invalidDate store req hv]
  · intro req hv hw store
    exact create_booking_weekend store req hv hw
  · intro req hv hw ht hbh store
    exact create_booking_outsideHours store req hv hw ht hbh

/-- C8: on every date falling on Saturday or Sunday the availability query
returns the empty slot list, whatever the store contains. -/
theorem weekend_availability_empty (store : Store) (y mo d : Nat)
    (hv : validDate y mo d) (hw : 5 ≤ weekday y mo d) :
    get_availability store y mo d = .ok [] :=
  get_availability_weekend' store y mo d hv hw

/-- C8 witness: Sunday 2024-06-09 with a nonempty store. -/
theorem weekend_availability_empty_witness :
    get_availability [bookingDocOf reqA] 2024 6 9 = .ok [] :=
  weekend_availability_empty [bookingDocOf reqA] 2024 6 9 (by decide) (by decide)

/-- C9: availability marks a grid slot taken only on an exact HH:MM match
of a stored start instant: after the writer accepts the off-grid booking
09:15 on Monday 2024-06-10, availability still returns the full grid
(including 09:30), yet booking 09:30 is then rejected with the 409
conflict error. -/
theorem offgrid_booking_shadow :
    (create_booking [] reqB915).1 = .ok (respOf reqB915) ∧
    get_availability (create_booking [] reqB915).2 2024 6 10 = .ok fullGrid ∧
    encodeStr "09:30" ∈ fullGrid ∧
    (create_booking (create_booking [] reqB915).2 reqB930).1 = .error .slotTaken ∧
    BookingError.statusCode .slotTaken = 409 := by
  refine ⟨by decide, by decide, by decide, by decide, rfl⟩

/-- C10: on every pair of instants with four-digit years — in particular
on every timestamp this service writes — lexicographic comparison of the
zero-padded ISO renderings coincides with chronological comparison, so the
string-based $gte/$lt/$gt store queries agree with the corresponding
comparisons of the underlying instants. -/
theorem iso_string_order_equiv (a b : Nat) (ha : a < isoMax) (hb : b < isoMax) :
    lexCmp (isoMin a) (isoMin b) = compare a b ∧
    (strGe (isoMin a) (isoMin b) = true ↔ b ≤ a) ∧
    (strLt (isoMin a) (isoMin b) = true ↔ a < b) ∧
    (strGt (isoMin a) (isoMin b) = true ↔ b < a) :=
  ⟨lexCmp_isoMin a b ha hb, strGe_isoMin a b ha hb, strLt_isoMin a b ha hb,
   strGt_isoMin a b ha hb⟩

/-- C10 witness: the equivalence at two concrete instants. -/
theorem iso_string_order_equiv_witness :
    lexCmp (isoMin 1000000) (isoMin 2000000) = compare 1000000 2000000 ∧
    (strGe (isoMin 1000000) (isoMin 2000000) = true ↔ 2000000 ≤ 1000000) ∧
    (strLt (isoMin 1000000) (isoMin 2000000) = true ↔ 1000000 < 2000000) ∧
    (strGt (isoMin 1000000) (isoMin 2000000) = true ↔ 2000000 < 1000000) :=
  iso_string_order_equiv 1000000 2000000 (by decide) (by decide)

end SchedAPI
